import Mathlib

/-!
Verification development for the push engine of `src/push.c` (libgit2).

The C code is shallowly embedded: object ids are naturals (0 models the
all-zero id), the object database is an association list, fallible calls
return explicit error codes (the C `int` convention: 0 = success, negative =
error), and the mutable packbuilder / revision walker are threaded as
explicit state.  Side effects that are observable through collaborator
interfaces (reference creation/deletion, callback invocations) are recorded
as explicit event lists.
-/

namespace Push

/-- Object ids.  `0` models the all-zero id (`git_oid_iszero`). -/
abbrev Oid := Nat

/-- Embedding of `git_oid_iszero`. -/
def git_oid_iszero (id : Oid) : Bool := id == 0

/-- The libgit2 success code. -/
def GIT_OK : Int := 0

/-- The generic libgit2 error code `GIT_ERROR`. -/
def GIT_ERROR : Int := -1

/-- The libgit2 error code `GIT_ENOTFOUND`. -/
def GIT_ENOTFOUND : Int := -3

/-- The libgit2 error code `GIT_ENONFASTFORWARD`. -/
def GIT_ENONFASTFORWARD : Int := -11

/-- Error classes passed to `giterr_set` in `push.c`. -/
inductive GitErrClass where
  | reference
  | invalid
  | net
deriving DecidableEq, Repr

/-- An object in the object database, carrying exactly the information
`push.c` reads: its type (`git_odb_read_header` / `git_object_type`) and,
for annotated tags, the target id (`git_tag_target`). -/
inductive GitObj where
  | commit
  | tree
  | blob
  | tag (target : Oid)
deriving DecidableEq, Repr

/-- Whether the object header says `GIT_OBJ_TAG`. -/
def GitObj.isTag : GitObj → Bool
  | .tag _ => true
  | _ => false

/-- The object database collaborator: an association list of objects plus the
`git_merge_base` primitive (external to `push.c`), which either returns the
merge base, or `GIT_ENOTFOUND` when no common ancestor exists, or another
negative lookup error. -/
structure Odb where
  objs : List (Oid × GitObj)
  mergeBase : Oid → Oid → Except Int Oid

/-- Object lookup (also used for `git_odb_read_header` and
`git_odb_exists`, which read the same store). -/
def Odb.lookup (odb : Odb) (id : Oid) : Option GitObj :=
  (odb.objs.find? (fun p => p.1 == id)).map (fun p => p.2)

/-- Embedding of `git_odb_exists`. -/
def git_odb_exists (odb : Odb) (id : Oid) : Bool :=
  (odb.lookup id).isSome

/-- The revision walker state: the ids seeded with `git_revwalk_push`
("wants") and those passed to `git_revwalk_hide` ("haves").  The traversal
itself belongs to the external ancestry primitive; `push.c` only feeds it. -/
structure Revwalk where
  wants : List Oid
  hides : List Oid
deriving DecidableEq, Repr

/-- Embedding of `git_revwalk_push`: seeding fails (negative return in C)
when the id does not name a commit; on success the id is appended to the
wants. -/
def git_revwalk_push (odb : Odb) (rw : Revwalk) (id : Oid) : Option Revwalk :=
  match odb.lookup id with
  | some .commit => some { rw with wants := rw.wants ++ [id] }
  | _ => none

/-- A parsed refspec as `push.c` reads it: source name, destination name and
the force flag. -/
structure Refspec where
  src : String
  dst : String
  force : Bool
deriving DecidableEq, Repr

/-- Embedding of `push_spec`: the refspec plus the resolved local (`loid`)
and remote (`roid`) object ids (both calloc-zeroed at parse time). -/
structure PushSpec where
  refspec : Refspec
  loid : Oid
  roid : Oid
deriving DecidableEq, Repr

/-- One advertised remote head (`git_remote_head`). -/
structure RemoteHead where
  name : String
  oid : Oid
deriving DecidableEq, Repr

/-- Embedding of `git_push_update` as built by `add_update`. -/
structure PushUpdate where
  src_refname : String
  dst_refname : String
  src : Oid
  dst : Oid
deriving DecidableEq, Repr

/-- Embedding of `push_status`: ref name plus the optional error message
(`msg = none` means the remote accepted the update). -/
structure PushStatus where
  ref : String
  msg : Option String
deriving DecidableEq, Repr

/-- The state `queue_objects` accumulates: the ids inserted directly into
the packbuilder (`git_packbuilder_insert`, in call order) and the revision
walker seeds. -/
structure QueueState where
  pb : List Oid
  rw : Revwalk
deriving DecidableEq, Repr

/-- Loop of `enqueue_tag` (lines 243-252): while the current object is a tag,
insert it into the packbuilder and dereference to its target.  The C loop
diverges on a cyclic tag chain; the fuel parameter makes the embedding total
(exhaustion returns `GIT_ERROR` and is unreachable for any acyclic chain
given fuel larger than the chain length).  Returns the packbuilder list
(mutations persist even when the loop fails partway) and either the first
non-tag object (with its id) or the error code. -/
def enqueue_tag_loop (odb : Odb) :
    Nat → Oid → GitObj → List Oid → List Oid × Except Int (Oid × GitObj)
  | 0, _, _, pb => (pb, .error GIT_ERROR)
  | fuel + 1, id, obj, pb =>
    match obj with
    | .tag tgt =>
      -- git_packbuilder_insert(push->pb, git_object_id(obj), NULL)
      let pb := pb ++ [id]
      -- git_tag_target: look up the tag target in the odb
      match odb.lookup tgt with
      | none => (pb, .error GIT_ENOTFOUND)
      | some tobj => enqueue_tag_loop odb fuel tgt tobj pb
    | _ => (pb, .ok (id, obj))

/-- Embedding of `enqueue_tag` (lines 235-260): `git_object_lookup` with
expected type `GIT_OBJ_TAG` (missing object or type mismatch returns
`GIT_ENOTFOUND`), then the peel loop. -/
def enqueue_tag (odb : Odb) (fuel : Nat) (id : Oid) (pb : List Oid) :
    List Oid × Except Int (Oid × GitObj) :=
  match odb.lookup id with
  | some obj =>
    if obj.isTag then enqueue_tag_loop odb fuel id obj pb
    else (pb, .error GIT_ENOTFOUND)
  | none => (pb, .error GIT_ENOTFOUND)

/-- Lines 289-312 of `queue_objects`: read the header of `loid`, peel tag
chains into the packbuilder, and seed the walker (commit) or packbuilder
(non-commit) with the terminal object.  The result is the updated state, the
value of the C local `error` variable, and whether `goto on_error` was taken.
Note that the C code does not assign `error` on `git_odb_read_header`,
`git_revwalk_push` or `git_packbuilder_insert` failure, so those aborts
return the stale `error` value. -/
def seed_spec (odb : Odb) (fuel : Nat) (spec : PushSpec) (st : QueueState)
    (err : Int) : QueueState × Int × Bool :=
  match odb.lookup spec.loid with
  | none => (st, err, true)      -- git_odb_read_header failed; error not assigned
  | some ty =>
    if ty.isTag then
      match enqueue_tag odb fuel spec.loid st.pb with
      | (pb, .error e) => ({ st with pb := pb }, e, true)
      | (pb, .ok (tid, tobj)) =>
        -- error = 0 from the successful enqueue_tag call
        let st := { st with pb := pb }
        if tobj = .commit then
          match git_revwalk_push odb st.rw tid with
          | none => (st, 0, true)       -- error not assigned on this failure
          | some rw => ({ st with rw := rw }, 0, false)
        else
          -- git_packbuilder_insert of the terminal non-commit object
          ({ st with pb := st.pb ++ [tid] }, 0, false)
    else
      match git_revwalk_push odb st.rw spec.loid with
      | none => (st, err, true)         -- error not assigned on this failure
      | some rw => ({ st with rw := rw }, err, false)

/-- Lines 314-340 of `queue_objects`: the fast-forward check for non-forced
specs.  Skipped entirely when `roid` is zero; fails with
`GIT_ENONFASTFORWARD` when `roid` is locally absent, when the merge base of
`loid` and `roid` does not exist, or when it is not exactly `roid`; any
other `git_merge_base` error aborts with that error.  The state is never
modified here. -/
def ff_check (odb : Odb) (spec : PushSpec) (st : QueueState) (err : Int) :
    QueueState × Int × Bool :=
  if !spec.refspec.force then
    if git_oid_iszero spec.roid then (st, err, false)
    else if !git_odb_exists odb spec.roid then (st, GIT_ENONFASTFORWARD, true)
    else
      match odb.mergeBase spec.loid spec.roid with
      | .error c =>
        if c == GIT_ENOTFOUND then (st, GIT_ENONFASTFORWARD, true)
        else (st, c, true)
      | .ok base =>
        if base ≠ spec.roid then (st, GIT_ENONFASTFORWARD, true)
        else (st, 0, false)             -- error = 0 from git_merge_base
  else (st, err, false)

/-- One iteration of the `git_vector_foreach` loop of `queue_objects`
(lines 275-341): skip deletions and up-to-date specs, then seed, then run
the fast-forward check. -/
def queue_one (odb : Odb) (fuel : Nat) (spec : PushSpec) (st : QueueState)
    (err : Int) : QueueState × Int × Bool :=
  if git_oid_iszero spec.loid then (st, err, false)
  else if spec.loid == spec.roid then (st, err, false)
  else
    match seed_spec odb fuel spec st err with
    | (st1, err1, true) => (st1, err1, true)
    | (st1, err1, false) => ff_check odb spec st1 err1

/-- The spec loop of `queue_objects`, stopping at the first `goto
on_error`. -/
def queue_loop (odb : Odb) (fuel : Nat) :
    List PushSpec → QueueState → Int → QueueState × Int × Bool
  | [], st, err => (st, err, false)
  | spec :: rest, st, err =>
    match queue_one odb fuel spec st err with
    | (st1, err1, true) => (st1, err1, true)
    | (st1, err1, false) => queue_loop odb fuel rest st1 err1

/-- Embedding of `queue_objects` (lines 262-356).  The walker starts empty
(`git_revwalk_new`, time sorting), the C local `error` starts at `-1`, the
spec loop runs, then each non-zero advertised remote head is hidden (the C
ignores `git_revwalk_hide`'s return value) and `git_packbuilder_insert_walk`
(modelled as always succeeding, it belongs to the external encoder) sets
`error = 0`.  The boolean records whether the loop aborted, i.e. whether the
hide/walk phase was skipped — note that an abort can still return code `0`
when the stale `error` variable was `0`. -/
def queue_objects (odb : Odb) (fuel : Nat) (specs : List PushSpec)
    (remoteHeads : List RemoteHead) : QueueState × Int × Bool :=
  let st0 : QueueState := { pb := [], rw := { wants := [], hides := [] } }
  match queue_loop odb fuel specs st0 (-1) with
  | (st, err, true) => (st, err, true)
  | (st, _, false) =>
    let rw := { st.rw with
      hides := st.rw.hides ++
        ((remoteHeads.filter (fun h => !git_oid_iszero h.oid)).map (fun h => h.oid)) }
    ({ st with rw := rw }, 0, false)

/-- The local repository as `push.c` reads it: the object database and the
reference store (`git_reference_name_to_id` resolves a name to an id). -/
structure Repo where
  odb : Odb
  refs : List (String × Oid)

/-- Embedding of `git_reference_name_to_id` against the reference store. -/
def git_reference_name_to_id (repo : Repo) (name : String) : Option Oid :=
  (repo.refs.find? (fun p => p.1 == name)).map (fun p => p.2)

/-- Embedding of `add_update` (lines 358-373): build a `git_push_update`
from the (resolved) spec — `src` is the remote id, `dst` the local id — and
append it to the session's update list. -/
def add_update (updates : List PushUpdate) (spec : PushSpec) : List PushUpdate :=
  updates ++ [{ src_refname := spec.refspec.src, dst_refname := spec.refspec.dst,
                src := spec.roid, dst := spec.loid }]

/-- The per-spec body of `calculate_work` (lines 383-399): resolve a
non-empty source via `git_reference_name_to_id` (`none` models the fatal
lookup failure), then copy the matching advertised head's id into `roid`
(first match wins, ids left unchanged when absent). -/
def resolve_spec (repo : Repo) (remoteHeads : List RemoteHead)
    (spec : PushSpec) : Option PushSpec :=
  let step2 : PushSpec → PushSpec := fun s =>
    match remoteHeads.find? (fun h => h.name == s.refspec.dst) with
    | some h => { s with roid := h.oid }
    | none => s
  if spec.refspec.src ≠ "" then
    match git_reference_name_to_id repo spec.refspec.src with
    | none => none
    | some id => some (step2 { spec with loid := id })
  else some (step2 spec)

/-- Embedding of `calculate_work` (lines 375-406): fold `resolve_spec` and
`add_update` over the session's specs.  On the first failing source lookup
it returns `-1` with error class `GITERR_REFERENCE` ("No such reference"),
leaving that spec and the rest unprocessed; on success every spec is
resolved and has exactly one update appended in iteration order. -/
def calculate_work (repo : Repo) (remoteHeads : List RemoteHead) :
    List PushSpec → List PushUpdate →
    List PushSpec × List PushUpdate × Int × Option GitErrClass
  | [], updates => ([], updates, 0, none)
  | spec :: rest, updates =>
    match resolve_spec repo remoteHeads spec with
    | none => (spec :: rest, updates, -1, some .reference)
    | some spec1 =>
      let updates1 := add_update updates spec1
      match calculate_work repo remoteHeads rest updates1 with
      | (specs2, updates2, code, cls) => (spec1 :: specs2, updates2, code, cls)

/-- A locally configured fetch-mapping refspec, as consumed by
`git_push_update_tips`: only its `git_refspec_transform` action on a remote
ref name is used (`none` models a transform failure, returned as `-1`). -/
structure FetchSpec where
  transform : String → Option String

/-- The remote collaborator state `git_push_update_tips` reads:
`git_remote__matching_refspec` finds the fetch refspec matching a pushed
ref name (external to `push.c`). -/
structure Remote where
  matchingRefspec : String → Option FetchSpec

/-- The local reference store written by `git_push_update_tips`
(tracking refs): name to id. -/
abbrev RefStore := List (String × Oid)

/-- Embedding of `git_reference_lookup` against the tracking-ref store. -/
def git_reference_lookup (store : RefStore) (name : String) : Option Oid :=
  (store.find? (fun p => p.1 == name)).map (fun p => p.2)

/-- Embedding of `git_reference_delete`: remove the named ref. -/
def git_reference_delete (store : RefStore) (name : String) : RefStore :=
  store.filter (fun p => p.1 ≠ name)

/-- Embedding of `git_reference_create` with `force = 1`: upsert the named
ref ("update by push"). -/
def git_reference_create (store : RefStore) (name : String) (id : Oid) : RefStore :=
  (name, id) :: store.filter (fun p => p.1 ≠ name)

/-- Observable effects of `git_push_update_tips`: tracking-ref deletions and
creations, and invocations of the external `update_tips` callback with
(tracking-ref name, old id = `roid`, new id = `loid`). -/
inductive TipEvent where
  | deletedRef (name : String)
  | createdRef (name : String) (id : Oid)
  | tipCallback (name : String) (oldId newId : Oid)
deriving DecidableEq, Repr

/-- The body of the status loop of `git_push_update_tips` (lines 168-222)
for a single `push_status`.  Returns the updated store, the events emitted
for this status, the error code, and whether `goto on_error` was taken.
Skips (`continue`) are a `false` abort flag with no events. -/
def tips_one (remote : Remote) (specs : List PushSpec)
    (cb : Option (String → Oid → Oid → Int)) (status : PushStatus)
    (store : RefStore) : RefStore × List TipEvent × Int × Bool :=
  -- Skip unsuccessful updates which have non-empty messages
  if status.msg.isSome then (store, [], 0, false)
  else
    -- Find the corresponding remote ref
    match remote.matchingRefspec status.ref with
    | none => (store, [], 0, false)
    | some fetch_spec =>
      match fetch_spec.transform status.ref with
      | none => (store, [], -1, true)  -- git_refspec_transform failed
      | some remote_ref_name =>
        -- Find matching push ref spec
        match specs.find? (fun s => s.refspec.dst == status.ref) with
        | none => (store, [], 0, false)
        | some push_spec =>
          -- Update the remote ref
          -- Reference deletion/creation; `git_reference_lookup` of a missing
          -- tracking ref is the GIT_ENOTFOUND case: the C clears the error
          -- and sets fire_callback = 0 (benign no-op).  Deletion and
          -- creation themselves are modelled as succeeding.
          let (store1, evs1, fire) :=
            if git_oid_iszero push_spec.loid then
              match git_reference_lookup store remote_ref_name with
              | some _ =>
                (git_reference_delete store remote_ref_name,
                 [TipEvent.deletedRef remote_ref_name], true)
              | none =>
                (store, [], false)
            else
              (git_reference_create store remote_ref_name push_spec.loid,
               [TipEvent.createdRef remote_ref_name push_spec.loid], true)
          if fire then
            match cb with
            | some f =>
              let r := f remote_ref_name push_spec.roid push_spec.loid
              (store1,
               evs1 ++ [TipEvent.tipCallback remote_ref_name push_spec.roid push_spec.loid],
               r, decide (r < 0))
            | none => (store1, evs1, 0, false)
          else (store1, evs1, 0, false)

/-- The status loop of `git_push_update_tips`, stopping at the first
`goto on_error` and returning `0` when the loop completes. -/
def update_tips_loop (remote : Remote) (specs : List PushSpec)
    (cb : Option (String → Oid → Oid → Int)) :
    List PushStatus → RefStore → List TipEvent →
    RefStore × List TipEvent × Int
  | [], store, events => (store, events, 0)
  | status :: rest, store, events =>
    match tips_one remote specs cb status store with
    | (store1, evs, code, true) => (store1, events ++ evs, code)
    | (store1, evs, _, false) => update_tips_loop remote specs cb rest store1 (events ++ evs)

/-- Embedding of `git_push_update_tips` (lines 158-229). -/
def git_push_update_tips (remote : Remote) (specs : List PushSpec)
    (cb : Option (String → Oid → Oid → Int)) (statuses : List PushStatus)
    (store : RefStore) : RefStore × List TipEvent × Int :=
  update_tips_loop remote specs cb statuses store []

/-- The transport collaborator: the push capability flag, and the `push`
entry point which transmits the enumerated state and returns the
remote-reported per-ref statuses, the unpack-accepted flag, and an error
code. -/
structure Transport where
  supportsPush : Bool
  pushFn : List PushSpec → QueueState → List PushStatus × Bool × Int

/-- The external callbacks `do_push` consults (`git_remote_callbacks`):
the optional push-negotiation callback. -/
structure Callbacks where
  push_negotiation : Option (List PushUpdate → Int)

/-- Observable milestones of `do_push`: the negotiation callback invocation
(with the update list it received), the enumeration (`queue_objects`) run,
and the transport transmission (with the state handed over). -/
inductive PushEvent where
  | negotiationInvoked (updates : List PushUpdate)
  | enumerationRun
  | transportPushed (st : QueueState)
deriving DecidableEq, Repr

/-- The outcome of `do_push` / `git_push_finish`: the session fields the C
mutates plus the event trace and the returned code. -/
structure DoPushRes where
  specs : List PushSpec
  updates : List PushUpdate
  statuses : List PushStatus
  unpack_ok : Bool
  events : List PushEvent
  code : Int
  errClass : Option GitErrClass
deriving Repr

/-- Embedding of `do_push` (lines 408-449): check the transport's push
capability, create the packbuilder (modelled as always succeeding),
`calculate_work`, invoke the optional negotiation callback (aborting only
on a negative return), `queue_objects`, then `transport->push`. -/
def do_push (repo : Repo) (transport : Transport)
    (remoteHeads : List RemoteHead) (cbs : Callbacks) (fuel : Nat)
    (specs : List PushSpec) : DoPushRes :=
  if !transport.supportsPush then
    { specs := specs, updates := [], statuses := [], unpack_ok := false,
      events := [], code := -1, errClass := some .net }
  else
    match calculate_work repo remoteHeads specs [] with
    | (specs1, updates, ccode, ccls) =>
      if ccode < 0 then
        { specs := specs1, updates := updates, statuses := [],
          unpack_ok := false, events := [], code := ccode, errClass := ccls }
      else
        let (negEvents, negCode) :=
          match cbs.push_negotiation with
          | some f => ([PushEvent.negotiationInvoked updates], f updates)
          | none => ([], 0)
        if negCode < 0 then
          { specs := specs1, updates := updates, statuses := [],
            unpack_ok := false, events := negEvents, code := negCode,
            errClass := none }
        else
          match queue_objects repo.odb fuel specs1 remoteHeads with
          | (qst, qcode, _) =>
            let events1 := negEvents ++ [PushEvent.enumerationRun]
            if qcode < 0 then
              { specs := specs1, updates := updates, statuses := [],
                unpack_ok := false, events := events1, code := qcode,
                errClass := none }
            else
              match transport.pushFn specs1 qst with
              | (sts, unpack, tcode) =>
                { specs := specs1, updates := updates, statuses := sts,
                  unpack_ok := unpack,
                  events := events1 ++ [PushEvent.transportPushed qst],
                  code := if tcode < 0 then tcode else 0, errClass := none }

/-- Embedding of `git_push_finish` (lines 469-487): connect and
`filter_refs` are modelled by handing `do_push` the freshly advertised
`remoteHeads` list; after a successful `do_push`, a false `unpack_ok` flag
turns the attempt into a failure (`-1`, `GITERR_NET`). -/
def git_push_finish (repo : Repo) (transport : Transport)
    (remoteHeads : List RemoteHead) (cbs : Callbacks) (fuel : Nat)
    (specs : List PushSpec) : DoPushRes :=
  let r := do_push repo transport remoteHeads cbs fuel specs
  if r.code < 0 then r
  else if !r.unpack_ok then { r with code := -1, errClass := some .net }
  else r

/-! ## Concrete fixtures used by witnesses and counterexamples -/

/-- An annotated tag chain in the object database: starting from `id`, the
ids in `tags` are tag objects each dereferencing to the next, and `fin` is
the terminal non-tag object (with content `fobj`). -/
inductive TagChain (odb : Odb) : Oid → List Oid → Oid → GitObj → Prop
  | nil (id : Oid) (obj : GitObj) (hlook : odb.lookup id = some obj)
      (hnt : obj.isTag = false) : TagChain odb id [] id obj
  | cons (id tgt : Oid) (tags : List Oid) (fin : Oid) (fobj : GitObj)
      (hlook : odb.lookup id = some (GitObj.tag tgt))
      (h : TagChain odb tgt tags fin fobj) : TagChain odb id (id :: tags) fin fobj

/-- Concrete fixture: two unrelated commits `1` and `2`, `GIT_ENOTFOUND`
merge bases. -/
def wOdb : Odb :=
  { objs := [(1, .commit), (2, .commit)],
    mergeBase := fun a b =>
      if a = 1 ∧ b = 2 then .error GIT_ENOTFOUND else .error GIT_ERROR }

/-- Concrete spec pushing commit `1` over unrelated remote tip `2`,
without force. -/
def wSpec : PushSpec :=
  { refspec := { src := "refs/heads/m", dst := "refs/heads/m", force := false },
    loid := 1, roid := 2 }

/-- Fixture for C2/C3: `10` is an annotated tag for commit `1`; commit `2`
is locally present but shares no history with anything (`git_merge_base`
always reports no common ancestor). -/
def c2Odb : Odb :=
  { objs := [(1, .commit), (2, .commit), (10, .tag 1)],
    mergeBase := fun _ _ => .error GIT_ENOTFOUND }

/-- A non-forced spec pushing tag `10` over the unrelated remote tip `2`. -/
def c2Spec : PushSpec :=
  { refspec := { src := "refs/tags/t", dst := "refs/tags/t", force := false },
    loid := 10, roid := 2 }

/-- A transport that supports push and reports one accepted ref with a
successful unpack. -/
def c4Transport : Transport :=
  { supportsPush := true,
    pushFn := fun _ _ => ([{ ref := "refs/heads/m", msg := none }], true, 0) }

/-- A repository over the `c2Odb` object store with an empty reference
store. -/
def c4Repo : Repo := { odb := c2Odb, refs := [] }

/-- A remote whose only fetch mapping sends `refs/heads/x` to the tracking
ref `refs/remotes/o/x`. -/
def c5Remote : Remote :=
  { matchingRefspec := fun r =>
      if r = "refs/heads/x" then
        some { transform := fun _ => some "refs/remotes/o/x" }
      else none }

/-- A deletion spec (empty source, all-zero `loid`) for `refs/heads/x`,
whose remote tip was `5`. -/
def c5Spec : PushSpec :=
  { refspec := { src := "", dst := "refs/heads/x", force := false },
    loid := 0, roid := 5 }

/-- A transport whose remote accepts the single ref but reports a failed
unpack. -/
def c6Transport : Transport :=
  { supportsPush := true,
    pushFn := fun _ _ => ([{ ref := "refs/heads/m", msg := none }], false, 0) }

/-- The result `queue_objects` produces for a session that seeds nothing:
empty outgoing set, empty wants, all non-zero advertised heads hidden. -/
def queue_empty_result (heads : List RemoteHead) : QueueState × Int × Bool :=
  ({ pb := [],
     rw := { wants := [],
             hides := (heads.filter (fun h => !git_oid_iszero h.oid)).map
                        (fun h => h.oid) } },
   0, false)

/-- A repository whose `refs/heads/m` already points at commit `1`. -/
def c7Repo : Repo := { odb := c2Odb, refs := [("refs/heads/m", 1)] }

/-- The advertised remote heads, with `refs/heads/m` already at `1`. -/
def c7Heads : List RemoteHead := [{ name := "refs/heads/m", oid := 1 }]

/-- An unresolved spec for `refs/heads/m` (ids still calloc-zero). -/
def c7Spec0 : PushSpec :=
  { refspec := { src := "refs/heads/m", dst := "refs/heads/m", force := false },
    loid := 0, roid := 0 }

/-- The PushUpdate that `add_update` builds from a resolved spec. -/
def push_update_of (s : PushSpec) : PushUpdate :=
  { src_refname := s.refspec.src, dst_refname := s.refspec.dst,
    src := s.roid, dst := s.loid }

/-- A spec whose source names a reference missing from the local store. -/
def c9BadSpec : PushSpec :=
  { refspec := { src := "refs/heads/gone", dst := "refs/heads/gone", force := false },
    loid := 0, roid := 0 }

/-! ## Helper notions and lemmas -/

theorem TagChain.head_lookup {odb : Odb} {id : Oid} {tags : List Oid}
    {fin : Oid} {fobj : GitObj} (h : TagChain odb id tags fin fobj) :
    ∃ o, odb.lookup id = some o := by
  induction h with
  | nil id obj hlook _ => exact ⟨obj, hlook⟩
  | cons id tgt tags fin fobj hlook _ _ => exact ⟨.tag tgt, hlook⟩

theorem TagChain.fin_lookup {odb : Odb} {id : Oid} {tags : List Oid}
    {fin : Oid} {fobj : GitObj} (h : TagChain odb id tags fin fobj) :
    odb.lookup fin = some fobj ∧ fobj.isTag = false := by
  induction h with
  | nil id obj hlook hnt => exact ⟨hlook, hnt⟩
  | cons id tgt tags fin fobj hlook h ih => exact ih

/-- The peel loop consumes a tag chain exactly: it inserts every tag of the
chain into the packbuilder, in order, and returns the terminal non-tag
object, given fuel beyond the chain length. -/
theorem enqueue_tag_loop_chain {odb : Odb} {id : Oid} {tags : List Oid}
    {fin : Oid} {fobj : GitObj} (h : TagChain odb id tags fin fobj) :
    ∀ fuel, tags.length + 1 ≤ fuel → ∀ obj, odb.lookup id = some obj →
    ∀ pb, enqueue_tag_loop odb fuel id obj pb = (pb ++ tags, .ok (fin, fobj)) := by
  induction h with
  | nil id obj0 hlook hnt =>
    intro fuel hfuel obj hobj pb
    obtain ⟨f, rfl⟩ : ∃ f, fuel = f + 1 := ⟨fuel - 1, by omega⟩
    rw [hlook] at hobj
    cases hobj
    cases obj0 <;> simp_all [enqueue_tag_loop, GitObj.isTag]
  | cons id tgt tags fin fobj hlook hch ih =>
    intro fuel hfuel obj hobj pb
    obtain ⟨f, rfl⟩ : ∃ f, fuel = f + 1 := ⟨fuel - 1, by omega⟩
    rw [hlook] at hobj
    cases hobj
    obtain ⟨tobj, htobj⟩ := hch.head_lookup
    simp only [enqueue_tag_loop, htobj]
    rw [ih f (by simpa using hfuel) tobj htobj (pb ++ [id])]
    simp

/-- The fast-forward check never modifies the enumeration state. -/
theorem ff_check_fst (odb : Odb) (spec : PushSpec) (st : QueueState)
    (err : Int) : (ff_check odb spec st err).1 = st := by
  unfold ff_check
  split
  · split
    · rfl
    · split
      · rfl
      · split
        · split <;> rfl
        · split <;> rfl
  · rfl

/-- The spec loop distributes over list append, stopping where the first
half aborts. -/
theorem queue_loop_append (odb : Odb) (fuel : Nat) (xs ys : List PushSpec)
    (st : QueueState) (err : Int) :
    queue_loop odb fuel (xs ++ ys) st err =
      match queue_loop odb fuel xs st err with
      | (st1, err1, true) => (st1, err1, true)
      | (st1, err1, false) => queue_loop odb fuel ys st1 err1 := by
  induction xs generalizing st err with
  | nil => simp [queue_loop]
  | cons x xs ih =>
    simp only [List.cons_append, queue_loop]
    rcases hq : queue_one odb fuel x st err with ⟨st1, err1, ab⟩
    cases ab <;> simp [ih]

/-- An up-to-date or deletion spec is skipped without touching state or
error variable. -/
theorem queue_one_skip (odb : Odb) (fuel : Nat) (spec : PushSpec)
    (st : QueueState) (err : Int) (h : spec.loid = spec.roid ∨ spec.loid = 0) :
    queue_one odb fuel spec st err = (st, err, false) := by
  unfold queue_one
  rcases h with h | h
  · rcases Nat.eq_zero_or_pos spec.loid with h0 | h0
    · simp [git_oid_iszero, h0]
    · simp [git_oid_iszero, h, Nat.pos_iff_ne_zero.mp h0]
  · simp [git_oid_iszero, h]

/-- Evaluating `queue_objects` on a single-spec session: the returned code
and abort flag are determined by the one `queue_one` step. -/
theorem queue_objects_singleton (odb : Odb) (fuel : Nat) (spec : PushSpec)
    (heads : List RemoteHead) (st2 : QueueState) (err2 : Int) (ab2 : Bool)
    (h : queue_one odb fuel spec ⟨[], ⟨[], []⟩⟩ (-1) = (st2, err2, ab2)) :
    (queue_objects odb fuel [spec] heads).2 =
      if ab2 then (err2, true) else (0, false) := by
  simp only [queue_objects, queue_loop, h]
  cases ab2 <;> rfl

/-! ## Claim C1 -/

/-- C1.  For every UpdateSpec with `force = false`, non-zero `loid` L
differing from `roid` R, whose seeding phase succeeds, enumerating the
single-spec session fails with `GIT_ENONFASTFORWARD` if and only if R is
non-zero and R is not an ancestor of L — that is, R is locally absent, the
merge base of L and R does not exist, or the merge base is not exactly R;
when R is zero the fast-forward check is skipped entirely and enumeration
succeeds. -/
theorem C1_fast_forward_iff (odb : Odb) (fuel : Nat) (spec : PushSpec)
    (heads : List RemoteHead) (st1 : QueueState) (err1 : Int)
    (hforce : spec.refspec.force = false)
    (hL : spec.loid ≠ 0)
    (hLR : spec.loid ≠ spec.roid)
    (hseed : seed_spec odb fuel spec ⟨[], ⟨[], []⟩⟩ (-1) = (st1, err1, false))
    (hmb : (∃ b, odb.mergeBase spec.loid spec.roid = .ok b) ∨
           odb.mergeBase spec.loid spec.roid = .error GIT_ENOTFOUND) :
    ((queue_objects odb fuel [spec] heads).2 = (GIT_ENONFASTFORWARD, true) ↔
      (spec.roid ≠ 0 ∧
        ¬(git_odb_exists odb spec.roid = true ∧
          odb.mergeBase spec.loid spec.roid = .ok spec.roid)))
    ∧ (spec.roid = 0 → (queue_objects odb fuel [spec] heads).2 = (0, false)) := by
  have hone : queue_one odb fuel spec ⟨[], ⟨[], []⟩⟩ (-1) =
      ff_check odb spec st1 err1 := by
    unfold queue_one
    simp only [git_oid_iszero, beq_iff_eq, hL, if_false, hLR, hseed]
  by_cases hR : spec.roid = 0
  · have hff : ff_check odb spec st1 err1 = (st1, err1, false) := by
      simp [ff_check, hforce, git_oid_iszero, hR]
    have h2 := queue_objects_singleton odb fuel spec heads _ _ _ (hone.trans hff)
    simp only [if_false, Bool.false_eq_true] at h2
    rw [h2]
    refine ⟨⟨fun hc => absurd (congrArg Prod.snd hc) (by simp),
            fun hc => absurd hR hc.1⟩, fun _ => rfl⟩
  · by_cases hex : git_odb_exists odb spec.roid = true
    · rcases hmb with ⟨b, hb⟩ | hb
      · by_cases hbr : b = spec.roid
        · subst hbr
          have hff : ff_check odb spec st1 err1 = (st1, 0, false) := by
            unfold ff_check
            rw [hb]
            simp [hforce, git_oid_iszero, hR, hex]
          have h2 := queue_objects_singleton odb fuel spec heads _ _ _ (hone.trans hff)
          simp only [if_false, Bool.false_eq_true] at h2
          rw [h2]
          refine ⟨⟨fun hc => absurd (congrArg Prod.fst hc)
              (by norm_num [GIT_ENONFASTFORWARD]),
            fun hc => absurd ⟨hex, hb⟩ hc.2⟩, fun h0 => absurd h0 hR⟩
        · have hff : ff_check odb spec st1 err1 = (st1, GIT_ENONFASTFORWARD, true) := by
            unfold ff_check
            rw [hb]
            simp [hforce, git_oid_iszero, hR, hex, hbr]
          have h2 := queue_objects_singleton odb fuel spec heads _ _ _ (hone.trans hff)
          simp only [if_true] at h2
          rw [h2]
          refine ⟨⟨fun _ => ⟨hR, fun hc => hbr ?_⟩, fun _ => rfl⟩,
            fun h0 => absurd h0 hR⟩
          rw [hb] at hc
          exact Except.ok.inj hc.2
      · have hff : ff_check odb spec st1 err1 = (st1, GIT_ENONFASTFORWARD, true) := by
          unfold ff_check
          rw [hb]
          simp [hforce, git_oid_iszero, hR, hex, GIT_ENOTFOUND]
        have h2 := queue_objects_singleton odb fuel spec heads _ _ _ (hone.trans hff)
        simp only [if_true] at h2
        rw [h2]
        refine ⟨⟨fun _ => ⟨hR, fun hc => ?_⟩, fun _ => rfl⟩, fun h0 => absurd h0 hR⟩
        rw [hb] at hc
        exact Except.noConfusion hc.2
    · have hff : ff_check odb spec st1 err1 = (st1, GIT_ENONFASTFORWARD, true) := by
        simp only [Bool.not_eq_true] at hex
        simp [ff_check, hforce, git_oid_iszero, hR, hex]
      have h2 := queue_objects_singleton odb fuel spec heads _ _ _ (hone.trans hff)
      simp only [if_true] at h2
      rw [h2]
      refine ⟨⟨fun _ => ⟨hR, fun hc => hex hc.1⟩, fun _ => rfl⟩,
        fun h0 => absurd h0 hR⟩

theorem C1_fast_forward_iff_witness :
    seed_spec wOdb 3 wSpec ⟨[], ⟨[], []⟩⟩ (-1) = (⟨[], ⟨[1], []⟩⟩, -1, false) ∧
    (((queue_objects wOdb 3 [wSpec] []).2 = (GIT_ENONFASTFORWARD, true) ↔
      (wSpec.roid ≠ 0 ∧
        ¬(git_odb_exists wOdb wSpec.roid = true ∧
          wOdb.mergeBase wSpec.loid wSpec.roid = .ok wSpec.roid)))
     ∧ (wSpec.roid = 0 → (queue_objects wOdb 3 [wSpec] []).2 = (0, false))) :=
  ⟨rfl, C1_fast_forward_iff wOdb 3 wSpec [] ⟨[], ⟨[1], []⟩⟩ (-1) rfl
    (by decide) (by decide) rfl (Or.inr rfl)⟩

/-! ## Claim C2 -/

/-- C2 counterexample: processing `c2Spec` is rejected as non-fast-forward
(`GIT_ENONFASTFORWARD`, abort), yet at that point the rejected spec has
already inserted its tag object `10` into the outgoing packbuilder set and
seeded commit `1` into the walker — so fast-forward validation runs after
seeding, not before it, and a rejected spec does contribute objects to the
in-progress outgoing set. -/
theorem C2_counterexample :
    queue_one c2Odb 3 c2Spec ⟨[], ⟨[], []⟩⟩ (-1) =
      (⟨[10], ⟨[1], []⟩⟩, GIT_ENONFASTFORWARD, true) ∧
    queue_objects c2Odb 3 [c2Spec] [⟨"refs/tags/t", 2⟩] =
      (⟨[10], ⟨[1], []⟩⟩, GIT_ENONFASTFORWARD, true) :=
  ⟨rfl, rfl⟩

/-- C2 amended: within a spec, seeding precedes the fast-forward check, so
a spec rejected as non-fast-forward may already have contributed objects to
the in-progress outgoing set; but the whole enumeration stops at the first
spec whose processing aborts (fast-forward violation or lookup error):
subsequent specs are not processed and the final hide/walk phase handing
the set to the pack encoder is not executed. -/
theorem C2_enumeration_aborts (odb : Odb) (fuel : Nat)
    (specs1 specs2 : List PushSpec) (spec : PushSpec)
    (heads : List RemoteHead) (st : QueueState) (err : Int)
    (st2 : QueueState) (err2 : Int)
    (hpre : queue_loop odb fuel specs1 ⟨[], ⟨[], []⟩⟩ (-1) = (st, err, false))
    (hab : queue_one odb fuel spec st err = (st2, err2, true)) :
    queue_objects odb fuel (specs1 ++ spec :: specs2) heads = (st2, err2, true) := by
  simp only [queue_objects, queue_loop_append, hpre, queue_loop, hab]

theorem C2_enumeration_aborts_witness :
    queue_loop c2Odb 3 [] ⟨[], ⟨[], []⟩⟩ (-1) = (⟨[], ⟨[], []⟩⟩, -1, false) ∧
    queue_one c2Odb 3 c2Spec ⟨[], ⟨[], []⟩⟩ (-1) =
      (⟨[10], ⟨[1], []⟩⟩, GIT_ENONFASTFORWARD, true) ∧
    queue_objects c2Odb 3 ([] ++ c2Spec :: [c2Spec]) [⟨"refs/tags/t", 2⟩] =
      (⟨[10], ⟨[1], []⟩⟩, GIT_ENONFASTFORWARD, true) :=
  ⟨rfl, rfl,
   C2_enumeration_aborts c2Odb 3 [] [c2Spec] c2Spec [⟨"refs/tags/t", 2⟩]
     ⟨[], ⟨[], []⟩⟩ (-1) ⟨[10], ⟨[1], []⟩⟩ GIT_ENONFASTFORWARD rfl rfl⟩

/-! ## Claim C3 -/

/-- Unfolding a non-empty tag chain: its first element is the head id,
which is a tag object dereferencing into the rest of the chain. -/
theorem TagChain.unfold_cons {odb : Odb} {id : Oid} {tags : List Oid}
    {fin : Oid} {fobj : GitObj} (h : TagChain odb id tags fin fobj)
    (hne : tags ≠ []) :
    ∃ tgt rest, tags = id :: rest ∧ odb.lookup id = some (.tag tgt) ∧
      TagChain odb tgt rest fin fobj := by
  induction h with
  | nil id obj hlook hnt => exact absurd rfl hne
  | cons id tgt rest fin fobj hlook hch ih => exact ⟨tgt, rest, rfl, hlook, hch⟩

/-- C3 counterexample: `10` names an annotated tag chain of depth 1
(terminal commit `1`), is non-zero, but the spec is up-to-date
(`loid = roid = 10`), so enumeration skips it entirely and inserts zero tag
objects rather than the one the claim demands. -/
theorem C3_counterexample :
    TagChain c2Odb 10 [10] 1 .commit ∧
    queue_one c2Odb 3
      { refspec := { src := "refs/tags/t", dst := "refs/tags/t", force := false },
        loid := 10, roid := 10 } ⟨[], ⟨[], []⟩⟩ (-1) =
      (⟨[], ⟨[], []⟩⟩, -1, false) :=
  ⟨TagChain.cons 10 1 [] 1 .commit rfl (TagChain.nil 1 .commit rfl rfl), rfl⟩

/-- C3 amended: for every UpdateSpec whose non-zero `loid` differs from
`roid` and names an annotated tag chain of depth N, processing that spec
inserts exactly the N tag objects of the chain, in order, directly into the
outgoing object set, then seeds the terminal non-tag object into the
ancestry walker if it is a commit and inserts it directly into the outgoing
set otherwise; no intermediate tag is omitted, and the fast-forward check
that follows leaves the state untouched. -/
theorem C3_tag_chain (odb : Odb) (fuel : Nat) (spec : PushSpec)
    (st : QueueState) (err : Int) (tags : List Oid) (fin : Oid) (fobj : GitObj)
    (hchain : TagChain odb spec.loid tags fin fobj)
    (hne : tags ≠ [])
    (hfuel : tags.length + 1 ≤ fuel)
    (hL : spec.loid ≠ 0) (hLR : spec.loid ≠ spec.roid) :
    seed_spec odb fuel spec st err =
      ({ pb := st.pb ++ tags ++ (if fobj = .commit then [] else [fin]),
         rw := { wants := st.rw.wants ++ (if fobj = .commit then [fin] else []),
                 hides := st.rw.hides } }, 0, false)
    ∧ (queue_one odb fuel spec st err).1 =
        { pb := st.pb ++ tags ++ (if fobj = .commit then [] else [fin]),
          rw := { wants := st.rw.wants ++ (if fobj = .commit then [fin] else []),
                  hides := st.rw.hides } } := by
  obtain ⟨tgt, rest, htags, hlook, hch⟩ := hchain.unfold_cons hne
  have henq : enqueue_tag odb fuel spec.loid st.pb = (st.pb ++ tags, .ok (fin, fobj)) := by
    unfold enqueue_tag
    rw [hlook]
    simp only [GitObj.isTag, if_true]
    exact enqueue_tag_loop_chain hchain fuel hfuel _ hlook st.pb
  have hfin := hchain.fin_lookup
  have hseed : seed_spec odb fuel spec st err =
      ({ pb := st.pb ++ tags ++ (if fobj = .commit then [] else [fin]),
         rw := { wants := st.rw.wants ++ (if fobj = .commit then [fin] else []),
                 hides := st.rw.hides } }, 0, false) := by
    unfold seed_spec
    rw [hlook]
    simp only [GitObj.isTag, if_true, henq]
    cases fobj with
    | commit => simp [git_revwalk_push, hfin.1]
    | tree => simp
    | blob => simp
    | tag t => exact absurd hfin.2 (by simp [GitObj.isTag])
  refine ⟨hseed, ?_⟩
  unfold queue_one
  simp only [git_oid_iszero, beq_iff_eq, hL, if_false, hLR, hseed]
  exact ff_check_fst odb spec _ 0

theorem C3_tag_chain_witness :
    TagChain c2Odb c2Spec.loid [10] 1 .commit ∧ ([10] : List Oid) ≠ [] ∧
    ([10] : List Oid).length + 1 ≤ 3 ∧ c2Spec.loid ≠ 0 ∧ c2Spec.loid ≠ c2Spec.roid ∧
    (seed_spec c2Odb 3 c2Spec ⟨[], ⟨[], []⟩⟩ (-1) = (⟨[10], ⟨[1], []⟩⟩, 0, false)
     ∧ (queue_one c2Odb 3 c2Spec ⟨[], ⟨[], []⟩⟩ (-1)).1 = ⟨[10], ⟨[1], []⟩⟩) := by
  have hch : TagChain c2Odb c2Spec.loid [10] 1 .commit :=
    TagChain.cons 10 1 [] 1 .commit rfl (TagChain.nil 1 .commit rfl rfl)
  refine ⟨hch, by decide, by decide, by decide, by decide, ?_⟩
  have h := C3_tag_chain c2Odb 3 c2Spec ⟨[], ⟨[], []⟩⟩ (-1) [10] 1 .commit hch
    (by decide) (by decide) (by decide) (by decide)
  simpa using h

/-! ## Claim C4 -/

/-- C4 counterexample: a negotiation callback returning the non-zero value
1 does not abort the push — enumeration still runs, the transport still
transmits, and the attempt reports success (`do_push` checks only for a
negative return). -/
theorem C4_counterexample :
    (do_push c4Repo c4Transport [] { push_negotiation := some fun _ => 1 } 3 []).events =
      [.negotiationInvoked [], .enumerationRun, .transportPushed ⟨[], ⟨[], []⟩⟩] ∧
    (do_push c4Repo c4Transport [] { push_negotiation := some fun _ => 1 } 3 []).code = 0 :=
  ⟨rfl, rfl⟩

/-- C4 amended: when a negotiation callback is registered, `do_push`
invokes it with the full PushUpdate list produced by work resolution, and a
negative (error) return from the callback aborts the push before
enumeration runs and before any object is transmitted by the transport
(a non-negative return, including a positive one, lets the push proceed). -/
theorem C4_negotiation_abort (repo : Repo) (transport : Transport)
    (heads : List RemoteHead) (fuel : Nat) (specs specs1 : List PushSpec)
    (updates : List PushUpdate) (f : List PushUpdate → Int)
    (hsup : transport.supportsPush = true)
    (hcw : calculate_work repo heads specs [] = (specs1, updates, 0, none))
    (hneg : f updates < 0) :
    do_push repo transport heads { push_negotiation := some f } fuel specs =
      { specs := specs1, updates := updates, statuses := [], unpack_ok := false,
        events := [.negotiationInvoked updates], code := f updates,
        errClass := none } := by
  unfold do_push
  rw [hsup, hcw]
  simp [hneg]

theorem C4_negotiation_abort_witness :
    c4Transport.supportsPush = true ∧
    calculate_work c4Repo [] [] [] = ([], [], 0, none) ∧
    (-5 : Int) < 0 ∧
    do_push c4Repo c4Transport [] { push_negotiation := some fun _ => -5 } 3 [] =
      { specs := [], updates := [], statuses := [], unpack_ok := false,
        events := [.negotiationInvoked []], code := -5, errClass := none } :=
  ⟨rfl, rfl, by decide,
   C4_negotiation_abort c4Repo c4Transport [] 3 [] [] [] (fun _ => -5)
     rfl rfl (by decide)⟩

/-! ## Claims C5 and C10 -/

/-- C5 counterexample: an accepted deletion whose tracking ref does not
exist locally is a benign no-op, but the registered tip-update callback is
NOT invoked (the C sets `fire_callback = 0` on `GIT_ENOTFOUND`): the
reconciliation ends with no events at all, while the claim demands a
callback invocation on a benign no-op. -/
theorem C5_counterexample :
    git_push_update_tips c5Remote [c5Spec] (some fun _ _ _ => 0)
      [{ ref := "refs/heads/x", msg := none }] [] = ([], [], 0) :=
  rfl

/-- C5 amended: for every accepted PushStatus whose UpdateSpec is a
deletion (`loid` all-zero), the tracking ref is deleted with a missing ref
treated as a benign no-op rather than an error; on successful deletion —
but not on the benign no-op, where the callback is suppressed — a
registered tip-update callback is invoked with the tracking-ref name, old
id and new id, and a negative (error) return from that callback aborts
reconciliation immediately, leaving subsequent refs unprocessed (a
non-negative return lets reconciliation continue). -/
theorem C5_deletion_reconcile (remote : Remote) (specs : List PushSpec)
    (f : String → Oid → Oid → Int) (status : PushStatus)
    (rest : List PushStatus) (store : RefStore) (events : List TipEvent)
    (fs : FetchSpec) (rname : String) (ps : PushSpec)
    (hmsg : status.msg = none)
    (hmatch : remote.matchingRefspec status.ref = some fs)
    (htrans : fs.transform status.ref = some rname)
    (hfind : specs.find? (fun s => s.refspec.dst == status.ref) = some ps)
    (hdel : ps.loid = 0) :
    (git_reference_lookup store rname = none →
      update_tips_loop remote specs (some f) (status :: rest) store events =
        update_tips_loop remote specs (some f) rest store events)
    ∧ (∀ v, git_reference_lookup store rname = some v →
        (f rname ps.roid ps.loid < 0 →
          update_tips_loop remote specs (some f) (status :: rest) store events =
            (git_reference_delete store rname,
             events ++ [.deletedRef rname, .tipCallback rname ps.roid ps.loid],
             f rname ps.roid ps.loid))
        ∧ (0 ≤ f rname ps.roid ps.loid →
          update_tips_loop remote specs (some f) (status :: rest) store events =
            update_tips_loop remote specs (some f) rest
              (git_reference_delete store rname)
              (events ++ [.deletedRef rname, .tipCallback rname ps.roid ps.loid]))) := by
  have hbody : ∀ s1 e1 c1 a1, tips_one remote specs (some f) status store = (s1, e1, c1, a1) →
      update_tips_loop remote specs (some f) (status :: rest) store events =
        (if a1 then (s1, events ++ e1, c1)
         else update_tips_loop remote specs (some f) rest s1 (events ++ e1)) := by
    intro s1 e1 c1 a1 h
    conv_lhs => rw [update_tips_loop]
    rw [h]
    cases a1 <;> rfl
  constructor
  · intro hlook
    have h1 : tips_one remote specs (some f) status store = (store, [], 0, false) := by
      simp only [tips_one, hmsg, Option.isSome_none, Bool.false_eq_true,
        if_false, hmatch, htrans, hfind]
      simp [git_oid_iszero, hdel, hlook]
    rw [hbody _ _ _ _ h1]
    simp
  · intro v hlook
    have hcommon : tips_one remote specs (some f) status store =
        (git_reference_delete store rname,
         [.deletedRef rname, .tipCallback rname ps.roid ps.loid],
         f rname ps.roid ps.loid, decide (f rname ps.roid ps.loid < 0)) := by
      simp only [tips_one, hmsg, Option.isSome_none, Bool.false_eq_true,
        if_false, hmatch, htrans, hfind]
      simp [git_oid_iszero, hdel, hlook]
    constructor
    · intro hneg
      rw [hbody _ _ _ _ hcommon]
      simp [hneg]
    · intro hpos
      rw [hbody _ _ _ _ hcommon]
      simp [not_lt.mpr hpos]

theorem C5_deletion_reconcile_witness :
    ({ ref := "refs/heads/x", msg := none } : PushStatus).msg = none ∧
    c5Remote.matchingRefspec "refs/heads/x" =
      some { transform := fun _ => some "refs/remotes/o/x" } ∧
    [c5Spec].find? (fun s => s.refspec.dst == "refs/heads/x") = some c5Spec ∧
    c5Spec.loid = 0 ∧
    git_reference_lookup [("refs/remotes/o/x", 5)] "refs/remotes/o/x" = some 5 ∧
    ((-7 : Int) < 0 →
      update_tips_loop c5Remote [c5Spec] (some fun _ _ _ => -7)
        ({ ref := "refs/heads/x", msg := none } ::
          [{ ref := "refs/heads/x", msg := none }]) [("refs/remotes/o/x", 5)] [] =
        (git_reference_delete [("refs/remotes/o/x", 5)] "refs/remotes/o/x",
         [] ++ [.deletedRef "refs/remotes/o/x",
                .tipCallback "refs/remotes/o/x" c5Spec.roid c5Spec.loid],
         -7)) :=
  ⟨rfl, rfl, rfl, rfl, rfl,
   ((C5_deletion_reconcile c5Remote [c5Spec] (fun _ _ _ => -7)
      { ref := "refs/heads/x", msg := none }
      [{ ref := "refs/heads/x", msg := none }] [("refs/remotes/o/x", 5)] []
      { transform := fun _ => some "refs/remotes/o/x" } "refs/remotes/o/x" c5Spec
      rfl rfl rfl rfl rfl).2 5 rfl).1⟩

/-- C10.  During tip reconciliation, an accepted PushStatus whose ref name
matches no locally configured fetch-mapping refspec, or matches no
UpdateSpec destination in the session, is skipped silently without error
and reconciliation continues with the remaining statuses (same store, same
events, same outcome). -/
theorem C10_unmatched_status_skipped (remote : Remote) (specs : List PushSpec)
    (cb : Option (String → Oid → Oid → Int)) (status : PushStatus)
    (rest : List PushStatus) (store : RefStore) (events : List TipEvent)
    (hmsg : status.msg = none)
    (h : remote.matchingRefspec status.ref = none ∨
      (∃ fs rname, remote.matchingRefspec status.ref = some fs ∧
        fs.transform status.ref = some rname ∧
        specs.find? (fun s => s.refspec.dst == status.ref) = none)) :
    update_tips_loop remote specs cb (status :: rest) store events =
      update_tips_loop remote specs cb rest store events := by
  have h1 : tips_one remote specs cb status store = (store, [], 0, false) := by
    rcases h with h | ⟨fs, rname, hm, ht, hf⟩
    · simp only [tips_one, hmsg, Option.isSome_none, Bool.false_eq_true,
        if_false, h]
    · simp only [tips_one, hmsg, Option.isSome_none, Bool.false_eq_true,
        if_false, hm, ht, hf]
  conv_lhs => rw [update_tips_loop]
  rw [h1]
  simp

theorem C10_unmatched_status_skipped_witness :
    ({ ref := "refs/heads/y", msg := none } : PushStatus).msg = none ∧
    c5Remote.matchingRefspec "refs/heads/y" = none ∧
    update_tips_loop c5Remote [c5Spec] none
      ({ ref := "refs/heads/y", msg := none } :: []) [("refs/remotes/o/x", 5)] [] =
      update_tips_loop c5Remote [c5Spec] none [] [("refs/remotes/o/x", 5)] [] :=
  ⟨rfl, rfl,
   C10_unmatched_status_skipped c5Remote [c5Spec] none
     { ref := "refs/heads/y", msg := none } [] [("refs/remotes/o/x", 5)] []
     rfl (Or.inl rfl)⟩

/-! ## Claim C6 -/

/-- C6.  When the transport round-trip completed without error (`do_push`
returned 0) but the session's unpack-accepted flag is false, the whole push
attempt is reported as failed by `git_push_finish` (`-1`, `GITERR_NET`),
even when every individual ref status was accepted. -/
theorem C6_unpack_failed (repo : Repo) (transport : Transport)
    (heads : List RemoteHead) (cbs : Callbacks) (fuel : Nat)
    (specs : List PushSpec)
    (hcode : (do_push repo transport heads cbs fuel specs).code = 0)
    (hunpack : (do_push repo transport heads cbs fuel specs).unpack_ok = false)
    (_hacc : ∀ s ∈ (do_push repo transport heads cbs fuel specs).statuses,
      s.msg = none) :
    (git_push_finish repo transport heads cbs fuel specs).code = -1 ∧
    (git_push_finish repo transport heads cbs fuel specs).errClass = some .net := by
  simp only [git_push_finish, hcode, hunpack]
  norm_num

theorem C6_unpack_failed_witness :
    (do_push c4Repo c6Transport [] ⟨none⟩ 3 []).code = 0 ∧
    (do_push c4Repo c6Transport [] ⟨none⟩ 3 []).unpack_ok = false ∧
    (∀ s ∈ (do_push c4Repo c6Transport [] ⟨none⟩ 3 []).statuses, s.msg = none) ∧
    ((git_push_finish c4Repo c6Transport [] ⟨none⟩ 3 []).code = -1 ∧
     (git_push_finish c4Repo c6Transport [] ⟨none⟩ 3 []).errClass = some .net) :=
  ⟨rfl, rfl, by decide,
   C6_unpack_failed c4Repo c6Transport [] ⟨none⟩ 3 [] rfl rfl (by decide)⟩

/-! ## Claim C7 -/

/-- A session in which every spec is up-to-date leaves the enumeration
state and error variable untouched. -/
theorem queue_loop_up_to_date (odb : Odb) (fuel : Nat) (specs : List PushSpec)
    (st : QueueState) (err : Int) (h : ∀ s ∈ specs, s.loid = s.roid) :
    queue_loop odb fuel specs st err = (st, err, false) := by
  induction specs with
  | nil => rfl
  | cons s rest ih =>
    rw [queue_loop, queue_one_skip odb fuel s st err (Or.inl (h s (by simp)))]
    exact ih (fun x hx => h x (by simp [hx]))

/-- C7.  An UpdateSpec whose `loid` equals `roid` is skipped by enumeration
before any seeding or fast-forward work, contributing zero objects, and a
session whose resolved specs are all up-to-date enumerates an empty object
set and still finishes the push with success. -/
theorem C7_idempotent (repo : Repo) (transport : Transport)
    (heads : List RemoteHead) (fuel : Nat) (specs specs1 : List PushSpec)
    (updates : List PushUpdate) (sts : List PushStatus)
    (spec : PushSpec) (st : QueueState) (err : Int)
    (hspec : spec.loid = spec.roid)
    (hsup : transport.supportsPush = true)
    (hcw : calculate_work repo heads specs [] = (specs1, updates, 0, none))
    (hup : ∀ s ∈ specs1, s.loid = s.roid)
    (htr : ∀ ss q, transport.pushFn ss q = (sts, true, 0)) :
    queue_one repo.odb fuel spec st err = (st, err, false)
    ∧ queue_objects repo.odb fuel specs1 heads = queue_empty_result heads
    ∧ (git_push_finish repo transport heads { push_negotiation := none }
        fuel specs).code = 0 := by
  have hql := queue_loop_up_to_date repo.odb fuel specs1 ⟨[], ⟨[], []⟩⟩ (-1) hup
  have hq : queue_objects repo.odb fuel specs1 heads = queue_empty_result heads := by
    simp [queue_objects, hql, queue_empty_result]
  refine ⟨queue_one_skip _ _ _ _ _ (Or.inl hspec), hq, ?_⟩
  simp [git_push_finish, do_push, hsup, hcw, hq, htr, queue_empty_result]

theorem C7_idempotent_witness :
    c4Transport.supportsPush = true ∧
    calculate_work c7Repo c7Heads [c7Spec0] [] =
      ([{ refspec := c7Spec0.refspec, loid := 1, roid := 1 }],
       [{ src_refname := "refs/heads/m", dst_refname := "refs/heads/m",
          src := 1, dst := 1 }], 0, none) ∧
    (∀ s ∈ [({ refspec := c7Spec0.refspec, loid := 1, roid := 1 } : PushSpec)],
      s.loid = s.roid) ∧
    (queue_one c7Repo.odb 3 { refspec := c7Spec0.refspec, loid := 1, roid := 1 }
        ⟨[], ⟨[], []⟩⟩ (-1) = (⟨[], ⟨[], []⟩⟩, -1, false)
     ∧ queue_objects c7Repo.odb 3
         [{ refspec := c7Spec0.refspec, loid := 1, roid := 1 }] c7Heads =
         queue_empty_result c7Heads
     ∧ (git_push_finish c7Repo c4Transport c7Heads { push_negotiation := none }
         3 [c7Spec0]).code = 0) :=
  ⟨rfl, rfl, by decide,
   C7_idempotent c7Repo c4Transport c7Heads 3 [c7Spec0]
     [{ refspec := c7Spec0.refspec, loid := 1, roid := 1 }]
     [{ src_refname := "refs/heads/m", dst_refname := "refs/heads/m",
        src := 1, dst := 1 }]
     [{ ref := "refs/heads/m", msg := none }]
     { refspec := c7Spec0.refspec, loid := 1, roid := 1 } ⟨[], ⟨[], []⟩⟩ (-1)
     rfl rfl rfl (by decide) (fun _ _ => rfl)⟩

/-! ## Claim C8 -/

/-- C8.  An UpdateSpec with an empty source ref keeps `loid` all-zero
through work resolution, enumeration contributes no objects for it, and on
remote acceptance the corresponding tracking ref is deleted during tip
reconciliation. -/
theorem C8_empty_source_deletion (repo : Repo) (heads : List RemoteHead)
    (spec : PushSpec) (odb : Odb) (fuel : Nat) (st : QueueState) (err : Int)
    (remote : Remote) (specs : List PushSpec) (status : PushStatus)
    (rest : List PushStatus) (store : RefStore) (events : List TipEvent)
    (fs : FetchSpec) (rname : String) (ps : PushSpec) (v : Oid)
    (hsrc : spec.refspec.src = "") (hl0 : spec.loid = 0)
    (hmsg : status.msg = none)
    (hmatch : remote.matchingRefspec status.ref = some fs)
    (htrans : fs.transform status.ref = some rname)
    (hfind : specs.find? (fun s => s.refspec.dst == status.ref) = some ps)
    (hps : ps.loid = 0)
    (hlook : git_reference_lookup store rname = some v) :
    ((resolve_spec repo heads spec).isSome = true ∧
     (∀ s1, resolve_spec repo heads spec = some s1 →
        s1.loid = 0 ∧ queue_one odb fuel s1 st err = (st, err, false)))
    ∧ update_tips_loop remote specs none (status :: rest) store events =
        update_tips_loop remote specs none rest
          (git_reference_delete store rname)
          (events ++ [TipEvent.deletedRef rname]) := by
  have hres : resolve_spec repo heads spec =
      some (match heads.find? (fun h => h.name == spec.refspec.dst) with
            | some h => { spec with roid := h.oid }
            | none => spec) := by
    simp [resolve_spec, hsrc]
  refine ⟨⟨by rw [hres]; rfl, ?_⟩, ?_⟩
  · intro s1 hs1
    rw [hres] at hs1
    have hl1 : s1.loid = 0 := by
      cases hh : heads.find? (fun h => h.name == spec.refspec.dst) with
      | some h => rw [hh] at hs1; cases hs1; exact hl0
      | none => rw [hh] at hs1; cases hs1; exact hl0
    exact ⟨hl1, queue_one_skip odb fuel s1 st err (Or.inr hl1)⟩
  · have h1 : tips_one remote specs none status store =
        (git_reference_delete store rname, [TipEvent.deletedRef rname], 0, false) := by
      simp only [tips_one, hmsg, Option.isSome_none, Bool.false_eq_true,
        if_false, hmatch, htrans, hfind]
      simp [git_oid_iszero, hps, hlook]
    conv_lhs => rw [update_tips_loop]
    rw [h1]

theorem C8_empty_source_deletion_witness :
    c5Spec.refspec.src = "" ∧ c5Spec.loid = 0 ∧
    c5Remote.matchingRefspec "refs/heads/x" =
      some { transform := fun _ => some "refs/remotes/o/x" } ∧
    [c5Spec].find? (fun s => s.refspec.dst == "refs/heads/x") = some c5Spec ∧
    git_reference_lookup [("refs/remotes/o/x", 5)] "refs/remotes/o/x" = some 5 ∧
    (((resolve_spec c7Repo c7Heads c5Spec).isSome = true ∧
      (∀ s1, resolve_spec c7Repo c7Heads c5Spec = some s1 →
        s1.loid = 0 ∧ queue_one c2Odb 3 s1 ⟨[], ⟨[], []⟩⟩ (-1) =
          (⟨[], ⟨[], []⟩⟩, -1, false)))
     ∧ update_tips_loop c5Remote [c5Spec] none
         ({ ref := "refs/heads/x", msg := none } :: []) [("refs/remotes/o/x", 5)] [] =
         update_tips_loop c5Remote [c5Spec] none []
           (git_reference_delete [("refs/remotes/o/x", 5)] "refs/remotes/o/x")
           ([] ++ [TipEvent.deletedRef "refs/remotes/o/x"])) :=
  ⟨rfl, rfl, rfl, rfl, rfl,
   C8_empty_source_deletion c7Repo c7Heads c5Spec c2Odb 3 ⟨[], ⟨[], []⟩⟩ (-1)
     c5Remote [c5Spec] { ref := "refs/heads/x", msg := none } []
     [("refs/remotes/o/x", 5)] []
     { transform := fun _ => some "refs/remotes/o/x" } "refs/remotes/o/x"
     c5Spec 5 rfl rfl rfl rfl rfl rfl rfl rfl⟩

/-! ## Claim C9 -/

/-- Work resolution of one spec fails exactly when the spec has a non-empty
source that the direct reference lookup cannot resolve. -/
theorem resolve_spec_none_iff (repo : Repo) (heads : List RemoteHead)
    (spec : PushSpec) :
    resolve_spec repo heads spec = none ↔
      (spec.refspec.src ≠ "" ∧
       git_reference_name_to_id repo spec.refspec.src = none) := by
  by_cases h : spec.refspec.src = ""
  · simp [resolve_spec, h]
  · cases hl : git_reference_name_to_id repo spec.refspec.src <;>
      simp [resolve_spec, h, hl]

/-- Successful work resolution resolves every spec and appends exactly one
update per spec, in order. -/
theorem calculate_work_ok (repo : Repo) (heads : List RemoteHead) :
    ∀ (specs : List PushSpec),
    (∀ s ∈ specs, (resolve_spec repo heads s).isSome) →
    ∀ us, calculate_work repo heads specs us =
      (specs.map (fun s => (resolve_spec repo heads s).getD s),
       us ++ (specs.map (fun s => (resolve_spec repo heads s).getD s)).map
         push_update_of,
       0, none) := by
  intro specs
  induction specs with
  | nil => intro _ us; simp [calculate_work]
  | cons s rest ih =>
    intro h us
    obtain ⟨s1, hs1⟩ := Option.isSome_iff_exists.mp (h s (by simp))
    simp only [calculate_work, hs1]
    rw [ih (fun x hx => h x (by simp [hx])) (add_update us s1)]
    simp [add_update, push_update_of, hs1]

/-- A failing source lookup anywhere in the spec list makes work resolution
return `-1` with error class `GITERR_REFERENCE`. -/
theorem calculate_work_fails (repo : Repo) (heads : List RemoteHead) :
    ∀ (specs : List PushSpec) (us : List PushUpdate),
    (∃ s ∈ specs, resolve_spec repo heads s = none) →
    ∃ specs1 updates1,
      calculate_work repo heads specs us = (specs1, updates1, -1, some .reference) := by
  intro specs
  induction specs with
  | nil =>
    intro us h
    simp at h
  | cons s rest ih =>
    intro us h
    cases hs : resolve_spec repo heads s with
    | none => exact ⟨s :: rest, us, by simp [calculate_work, hs]⟩
    | some s1 =>
      have hrest : ∃ x ∈ rest, resolve_spec repo heads x = none := by
        rcases h with ⟨x, hx, hxn⟩
        rcases List.mem_cons.mp hx with rfl | hx2
        · rw [hxn] at hs
          exact absurd hs (by simp)
        · exact ⟨x, hx2, hxn⟩
      obtain ⟨sp1, up1, hrec⟩ := ih (add_update us s1) hrest
      exact ⟨s1 :: sp1, up1, by simp only [calculate_work, hs, hrec]⟩

/-- C9.  After successful work resolution every UpdateSpec is resolved
(both ids populated, `roid` copied from the matching advertised head when
one exists) and exactly one PushUpdate per spec is appended in iteration
order; and if any non-empty source ref fails direct reference lookup,
resolution fails with `-1` / `GITERR_REFERENCE` and `do_push` aborts with
no negotiation, enumeration or transport work. -/
theorem C9_work_resolution (repo : Repo) (transport : Transport)
    (heads : List RemoteHead) (cbs : Callbacks) (fuel : Nat)
    (specs : List PushSpec)
    (hsup : transport.supportsPush = true) :
    ((∀ s ∈ specs, (resolve_spec repo heads s).isSome) →
      calculate_work repo heads specs [] =
        (specs.map (fun s => (resolve_spec repo heads s).getD s),
         (specs.map (fun s => (resolve_spec repo heads s).getD s)).map
           push_update_of,
         0, none))
    ∧ ((∃ s ∈ specs, s.refspec.src ≠ "" ∧
          git_reference_name_to_id repo s.refspec.src = none) →
        ∃ specs1 updates1,
          calculate_work repo heads specs [] =
            (specs1, updates1, -1, some .reference) ∧
          do_push repo transport heads cbs fuel specs =
            { specs := specs1, updates := updates1, statuses := [],
              unpack_ok := false, events := [], code := -1,
              errClass := some .reference }) := by
  constructor
  · intro h
    simpa using calculate_work_ok repo heads specs h []
  · intro h
    have h2 : ∃ s ∈ specs, resolve_spec repo heads s = none := by
      rcases h with ⟨s, hs, h1, h2⟩
      exact ⟨s, hs, (resolve_spec_none_iff repo heads s).mpr ⟨h1, h2⟩⟩
    obtain ⟨specs1, updates1, hcw⟩ := calculate_work_fails repo heads specs [] h2
    refine ⟨specs1, updates1, hcw, ?_⟩
    simp [do_push, hsup, hcw]

theorem C9_work_resolution_witness :
    (∀ s ∈ [c7Spec0], (resolve_spec c7Repo c7Heads s).isSome) ∧
    (calculate_work c7Repo c7Heads [c7Spec0] [] =
      ([c7Spec0].map (fun s => (resolve_spec c7Repo c7Heads s).getD s),
       ([c7Spec0].map (fun s => (resolve_spec c7Repo c7Heads s).getD s)).map
         push_update_of, 0, none)) ∧
    (∃ s ∈ [c9BadSpec], s.refspec.src ≠ "" ∧
      git_reference_name_to_id c7Repo s.refspec.src = none) ∧
    (∃ specs1 updates1,
      calculate_work c7Repo c7Heads [c9BadSpec] [] =
        (specs1, updates1, -1, some .reference) ∧
      do_push c7Repo c4Transport c7Heads ⟨none⟩ 3 [c9BadSpec] =
        { specs := specs1, updates := updates1, statuses := [],
          unpack_ok := false, events := [], code := -1,
          errClass := some .reference }) :=
  ⟨by decide,
   (C9_work_resolution c7Repo c4Transport c7Heads ⟨none⟩ 3 [c7Spec0] rfl).1
     (by decide),
   by decide,
   (C9_work_resolution c7Repo c4Transport c7Heads ⟨none⟩ 3 [c9BadSpec] rfl).2
     (by decide)⟩

end Push

